import Mathlib

/-!
# Verification of the AI news briefing pipeline

Shallow embedding of the repository's pipeline modules
(`src/aggregator.py`, `src/summarizer.py`, `src/pdf_generator.py`,
`src/email_sender.py`, `main.py`) and proofs of the specification's
testable properties about them.

Python strings are modelled by `String`; Python dicts that play the role of
records are modelled by structures; JSON-object dicts whose key set matters
are modelled by association lists (`List (String × _)`) in insertion order,
which is how CPython dicts behave.  Python slicing `s[:n]` is modelled by
`pySlice`, Python truthiness of optional strings by `pyTruthy`.
-/

set_option linter.unusedVariables false

/-- Models Python string slicing `s[:n]` (first `n` code points). -/
def pySlice (s : String) (n : Nat) : String :=
  String.mk (s.data.take n)

/-- Models Python truthiness of an optional string: `None` and `""` are falsy. -/
def pyTruthy (o : Option String) : Bool :=
  match o with
  | none => false
  | some s => !s.isEmpty

/-- Models Python `a or b` on optional strings (as used for config fallbacks). -/
def pyOr (a b : Option String) : Option String :=
  if pyTruthy a then a else b

/-- A fetched news item, as produced by the source fetchers
(`src/aggregator.py`): the dict
`{"title": …, "url": …, "summary": …, "published": …, "source": …}`. -/
structure NewsItem where
  title : String
  url : String
  summary : String
  published : String
  source : String
  deriving DecidableEq, Repr

/-- Models Python `s.lower()`: code-point-wise lowercasing. -/
def pyLower (s : String) : String :=
  String.mk (s.data.map Char.toLower)

/-- Models Python `s.strip()`: remove leading and trailing whitespace. -/
def pyStrip (s : String) : String :=
  String.mk (((s.data.dropWhile Char.isWhitespace).reverse.dropWhile Char.isWhitespace).reverse)

/-- The dedup key of `aggregate_news`: `item["title"].lower().strip()`. -/
def normTitle (s : String) : String :=
  pyStrip (pyLower s)

/-- The inner loop of `aggregate_news` (src/aggregator.py lines 277-281),
generic in the key function: walk the items, keeping an item exactly when its
key is nonempty and not yet in `seen`, in which case the key is added to
`seen`. -/
def dedupKey {α : Type} (key : α → String) : List α → List String → List α
  | [], _ => []
  | i :: rest, seen =>
    let k := key i
    if k ≠ "" ∧ k ∉ seen then i :: dedupKey key rest (k :: seen)
    else dedupKey key rest seen

/-- The `seen_titles` set after the `dedupKey` loop has processed a list. -/
def seenAfter {α : Type} (key : α → String) : List α → List String → List String
  | [], seen => seen
  | i :: rest, seen =>
    let k := key i
    if k ≠ "" ∧ k ∉ seen then seenAfter key rest (k :: seen)
    else seenAfter key rest seen

/-- The dedup key applied to a `NewsItem`. -/
def itemKey (x : NewsItem) : String :=
  normTitle x.title

/-- The outer loop of `aggregate_news` (src/aggregator.py lines 274-283):
one pass per fetcher result, all sharing the `seen_titles` set and
concatenating into `all_items`.  (The per-fetcher `try/except` only guards
I/O failures of the fetcher call itself, which the model's input — the list
of fetcher results — already abstracts.) -/
def aggLoop : List (List NewsItem) → List String → List NewsItem
  | [], _ => []
  | items :: rest, seen =>
    dedupKey itemKey items seen ++ aggLoop rest (seenAfter itemKey items seen)

/-- `aggregate_news` (src/aggregator.py lines 254-286), as a function of the
lists of items the fetchers produced, in order. -/
def aggregate_news (fetched : List (List NewsItem)) : List NewsItem :=
  aggLoop fetched []

/-- The aggregation loop run on position-tagged items, used to speak about
*which occurrence* of a duplicated title survives. -/
def aggregateEnum (fetched : List (List NewsItem)) : List (Nat × NewsItem) :=
  dedupKey (fun p => itemKey p.2) fetched.flatten.enum []

/- ── Feed fetcher (src/aggregator.py lines 17-57) ──────────────────────── -/

/-- A parsed feed entry as `feedparser` presents it to `_fetch_feed`:
the fields the code reads, with `published_parsed` modelled as an optional
UTC timestamp in seconds (`none` models a missing/empty time struct, which
is falsy in Python). -/
structure Entry where
  title : String
  link : String
  summary : String
  published : String
  published_parsed : Option Int
  deriving DecidableEq, Repr

/-- `_age_days` (src/aggregator.py lines 17-22): how many days ago the
entry's time struct is, `0.0` when the struct is missing.  `now` is the
current UTC time in seconds. -/
def age_days (now : Int) (pub : Option Int) : Rat :=
  match pub with
  | none => 0
  | some p => ((now - p : Int) : Rat) / 86400

/-- `_clean_html` (src/aggregator.py lines 52-57).  The HTML-tag extraction
(`BeautifulSoup(...).get_text(" ")`) is an external library collaborator, so
`raw` here models the extracted text; the function performs the code's own
steps: collapse whitespace runs to a single space (`re.sub(r"\s+", " ", _)`),
strip, and truncate to 600 characters. -/
def clean_html (raw : String) : String :=
  if raw.data.isEmpty then ""
  else pySlice (String.mk (List.intercalate [' ']
    ((raw.data.splitOnP (fun c => c.isWhitespace)).filter (fun w => !w.isEmpty)))) 600

/-- The item dict built by `_fetch_feed` for one entry (src/aggregator.py
lines 36-42); `src` models `feed.feed.get("title", url)`. -/
def entryToItem (src : String) (e : Entry) : NewsItem :=
  { title := pyStrip e.title
    url := e.link
    summary := clean_html e.summary
    published := e.published
    source := src }

/-- The entry loop of `_fetch_feed` (src/aggregator.py lines 32-44): skip an
entry when its age exceeds `maxAge` days, otherwise append it, stopping once
`limit` items are collected. -/
def fetchFeedLoop (now maxAge : Int) (limit : Nat) (src : String) :
    List Entry → List NewsItem → List NewsItem
  | [], acc => acc
  | e :: rest, acc =>
    if age_days now e.published_parsed > (maxAge : Rat) then
      fetchFeedLoop now maxAge limit src rest acc
    else
      let acc' := acc ++ [entryToItem src e]
      if limit ≤ acc'.length then acc'
      else fetchFeedLoop now maxAge limit src rest acc'

/-- `_fetch_feed` (src/aggregator.py lines 25-49) on an already-parsed feed:
considers only the first `limit * 2` entries, then runs the filtering loop. -/
def fetch_feed (now maxAge : Int) (limit : Nat) (src : String)
    (entries : List Entry) : List NewsItem :=
  fetchFeedLoop now maxAge limit src (entries.take (limit * 2)) []

/- ── Summarizer (src/summarizer.py) ────────────────────────────────────── -/

/-- The 7 fixed category names (src/summarizer.py lines 15-23). -/
def CATEGORIES : List String :=
  [ "Research Breakthroughs"
  , "Product Launches & Updates"
  , "Industry News & Business"
  , "Policy, Safety & Ethics"
  , "Open Source & Developer Tools"
  , "Robotics & Autonomous Systems"
  , "Other AI & Tech News" ]

/-- A story object as it may appear in the parsed Claude response: every
field optional (absent keys are `none`); `_validate_result` fills defaults. -/
structure RawStory where
  title : Option String
  url : Option String
  source : Option String
  reason : Option String
  summary : Option String
  deriving DecidableEq, Repr

/-- The value found under `"top_stories"` in the parsed response:
either a JSON list of story objects or a value of some other type. -/
inductive TopVal where
  | list (stories : List RawStory)
  | notList
  deriving DecidableEq, Repr

/-- The value found under `"categories"` in the parsed response: either a
JSON object (an insertion-ordered association list) or some other type. -/
inductive CatVal where
  | dict (entries : List (String × List RawStory))
  | notDict
  deriving DecidableEq, Repr

/-- The parsed Claude response dict as `_validate_result` receives it:
each of the three keys may be absent (`none`) or hold a value of the
wrong type. -/
structure RawResult where
  executive_summary : Option String
  top_stories : Option TopVal
  categories : Option CatVal
  deriving DecidableEq, Repr

/-- A normalized top story: `{title, url, source, reason}`, all present. -/
structure TopStory where
  title : String
  url : String
  source : String
  reason : String
  deriving DecidableEq, Repr

/-- A normalized category story: `{title, url, source, summary}`. -/
structure CatStory where
  title : String
  url : String
  source : String
  summary : String
  deriving DecidableEq, Repr

/-- The structured briefing the summarizer returns (spec's `Briefing`). -/
structure Briefing where
  executive_summary : String
  top_stories : List TopStory
  categories : List (String × List CatStory)
  deriving DecidableEq, Repr

/-- Key lookup in an insertion-ordered dict model. -/
def lookupKey {α : Type} (k : String) : List (String × α) → Option α
  | [] => none
  | (k', v) :: rest => if k' = k then some v else lookupKey k rest

/-- Models `if k not in d: d[k] = v` on a Python dict: appends the pair only
when the key is absent. -/
def dictInsertDefault {α : Type} (d : List (String × α)) (k : String) (v : α) :
    List (String × α) :=
  if (lookupKey k d).isSome then d else d ++ [(k, v)]

/-- Models `d[k] = v` on a Python dict: updates the value in place when the
key exists, otherwise appends the pair. -/
def dictSet {α : Type} (d : List (String × α)) (k : String) (v : α) :
    List (String × α) :=
  if (lookupKey k d).isSome then d.map (fun p => if p.1 = k then (p.1, v) else p)
  else d ++ [(k, v)]

/-- The `story.setdefault` block for top stories
(src/summarizer.py lines 166-170). -/
def normTopStory (s : RawStory) : TopStory :=
  { title := s.title.getD "Untitled"
    url := s.url.getD "#"
    source := s.source.getD "Unknown"
    reason := s.reason.getD "" }

/-- The `story.setdefault` block for category stories
(src/summarizer.py lines 171-176). -/
def normCatStory (s : RawStory) : CatStory :=
  { title := s.title.getD "Untitled"
    url := s.url.getD "#"
    source := s.source.getD "Unknown"
    summary := s.summary.getD "" }

/-- The categories dict the response carried, after the
`not in result / not isinstance dict` defaulting: `{}` unless the key held a
dict (src/summarizer.py lines 159-160). -/
def origCats (r : RawResult) : List (String × List RawStory) :=
  match r.categories with
  | some (CatVal.dict d) => d
  | _ => []

/-- The top-stories list the response carried, after the
`not in result / not isinstance list` defaulting (src/summarizer.py
lines 157-158). -/
def origTop (r : RawResult) : List RawStory :=
  match r.top_stories with
  | some (TopVal.list l) => l
  | _ => []

/-- `_validate_result` (src/summarizer.py lines 153-176): default the three
top-level keys, force-insert each of the 7 fixed categories with an empty
list when absent, and fill default fields into every story object. -/
def validate_result (r : RawResult) : Briefing :=
  { executive_summary := r.executive_summary.getD "No summary available."
    top_stories := (origTop r).map normTopStory
    categories :=
      (CATEGORIES.foldl (fun d c => dictInsertDefault d c []) (origCats r)).map
        (fun p => (p.1, p.2.map normCatStory)) }

/-- `_empty_result` (src/summarizer.py lines 179-184). -/
def empty_result : Briefing :=
  { executive_summary := "No news items were available this week."
    top_stories := []
    categories := CATEGORIES.map (fun c => (c, [])) }

/-- `_fallback_result` (src/summarizer.py lines 187-215): first 40 items
verbatim into the catch-all category, first 5 items as top stories with
`reason` the summary truncated to 150 characters, fixed placeholder
executive summary. -/
def fallback_result (items : List NewsItem) : Briefing :=
  { executive_summary :=
      "This week\x27s briefing contains the latest AI and tech news. Automated summarization encountered an issue; stories are listed below."
    top_stories := (items.take 5).map (fun it =>
      { title := it.title
        url := it.url
        source := it.source
        reason := pySlice it.summary 150 })
    categories :=
      dictSet (CATEGORIES.map (fun c => (c, []))) "Other AI & Tech News"
        ((items.take 40).map (fun it =>
          { title := it.title
            url := it.url
            source := it.source
            summary := it.summary })) }

/-- Outcome of the one call to the external summarization capability:
`success (some r)` — the response text parsed as JSON of shape `r` (after
optional fence stripping); `success none` — `json.JSONDecodeError`;
`apiError` — `anthropic.APIError`. -/
inductive ApiOutcome where
  | success (parsed : Option RawResult)
  | apiError
  deriving DecidableEq, Repr

/-- `categorize_and_summarize` (src/summarizer.py lines 49-150), with the
external capability abstracted as `api` and the API-key presence as
`hasKey`.  The second component counts invocations of the external
capability. -/
def categorize_and_summarize (items : List NewsItem) (hasKey : Bool)
    (api : ApiOutcome) : Except String Briefing × Nat :=
  if items.isEmpty then (Except.ok empty_result, 0)
  else if !hasKey then (Except.error "ANTHROPIC_API_KEY is not set.", 0)
  else
    match api with
    | ApiOutcome.success (some r) => (Except.ok (validate_result r), 1)
    | ApiOutcome.success none => (Except.ok (fallback_result items), 1)
    | ApiOutcome.apiError => (Except.error "Claude API error", 1)

/- ── Document renderer (src/pdf_generator.py) ──────────────────────────── -/

/-- The title text rendered for a top story in `generate_pdf`
(src/pdf_generator.py line 579: `title_text = story.get("title", "Untitled")`,
used verbatim in the card's `Paragraph`). -/
def topStoryTitleText (story : TopStory) : String :=
  story.title

/-- The title text rendered in a category card
(src/pdf_generator.py line 797:
`title_display = title[:120] + ("…" if len(title) > 120 else "")`). -/
def cardTitleText (title : String) : String :=
  pySlice title 120 ++ (if 120 < title.length then "…" else "")

/-- The summary text rendered in a category card
(src/pdf_generator.py line 798:
`summary_display = summary[:280] + ("…" if len(summary) > 280 else "")`). -/
def cardSummaryText (summary : String) : String :=
  pySlice summary 280 ++ (if 280 < summary.length then "…" else "")

/- ── Delivery (src/email_sender.py) ────────────────────────────────────── -/

/-- What one SMTP attempt does: succeed, fail with
`smtplib.SMTPAuthenticationError`, or fail with another `smtplib.SMTPException`
(a transient transport error). -/
inductive AttemptOutcome where
  | ok
  | authError
  | smtpError
  deriving DecidableEq, Repr

/-- How the send loop of `send_briefing` ends: a successful send on the given
attempt, an authentication error raised on the given attempt, the last
transport error raised after the given (final) attempt, or no attempt at all
(`max_retries = 0`). -/
inductive SendResult where
  | sent (attempt : Nat)
  | authRaised (attempt : Nat)
  | smtpRaised (attempt : Nat)
  | noAttempt
  deriving DecidableEq, Repr

/-- The retry loop of `send_briefing` (src/email_sender.py lines 289-315):
`attempt` is the 1-based attempt counter, the second argument the number of
loop iterations left.  Returns the outcome together with the list of
`time.sleep` durations performed (`2 ** attempt`, only when further attempts
remain). -/
def sendAttempts (o : Nat → AttemptOutcome) : Nat → Nat → SendResult × List Nat
  | _, 0 => (SendResult.noAttempt, [])
  | attempt, remaining + 1 =>
    match o attempt with
    | AttemptOutcome.ok => (SendResult.sent attempt, [])
    | AttemptOutcome.authError => (SendResult.authRaised attempt, [])
    | AttemptOutcome.smtpError =>
      if remaining = 0 then (SendResult.smtpRaised attempt, [])
      else
        let r := sendAttempts o (attempt + 1) remaining
        (r.1, 2 ^ attempt :: r.2)

/-- `for attempt in range(1, max_retries + 1)` around the SMTP send. -/
def sendLoop (o : Nat → AttemptOutcome) (maxRetries : Nat) : SendResult × List Nat :=
  sendAttempts o 1 maxRetries

/-- Models `", ".join(...)` and friends. -/
def pyJoin (sep : String) : List String → String
  | [] => ""
  | [x] => x
  | x :: xs => x ++ sep ++ pyJoin sep xs

/-- The list of missing configuration names computed by `send_briefing`
(src/email_sender.py lines 221-227), in source order. -/
def missingNames (to_addr from_addr password : Option String) : List String :=
  (if pyTruthy to_addr then [] else ["RECIPIENT_EMAIL"]) ++
  (if pyTruthy from_addr then [] else ["SENDER_EMAIL"]) ++
  (if pyTruthy password then [] else ["GMAIL_APP_PASSWORD"])

/-- How `send_briefing` ends: the configuration `ValueError`, or the result
of the send loop. -/
inductive SendOutcome where
  | configError (msg : String)
  | result (r : SendResult × List Nat)
  deriving DecidableEq, Repr

/-- `send_briefing` (src/email_sender.py lines 195-315) reduced to the
behavior the claims are about: resolve each configuration value as
`argument or environment-variable` (Python `or`: empty strings are falsy),
raise the `ValueError` naming the missing values when any is unset, and
otherwise run the SMTP retry loop.  Message building, the optional HTML dump
and the PDF attachment happen between the two steps and involve no network
activity. -/
def send_briefing (recipient envRecipient sender envSender password envPassword : Option String)
    (o : Nat → AttemptOutcome) (maxRetries : Nat) : SendOutcome :=
  let to_addr := pyOr recipient envRecipient
  let from_addr := pyOr sender envSender
  let pw := pyOr password envPassword
  if pyTruthy to_addr && pyTruthy from_addr && pyTruthy pw then
    SendOutcome.result (sendLoop o maxRetries)
  else
    SendOutcome.configError
      ("Missing email configuration: " ++ pyJoin ", " (missingNames to_addr from_addr pw))

/-- Number of SMTP connections opened over the lifetime of a
`send_briefing` call (each loop iteration opens exactly one). -/
def networkAttempts : SendOutcome → Nat
  | SendOutcome.configError _ => 0
  | SendOutcome.result (SendResult.sent n, _) => n
  | SendOutcome.result (SendResult.authRaised n, _) => n
  | SendOutcome.result (SendResult.smtpRaised n, _) => n
  | SendOutcome.result (SendResult.noAttempt, _) => 0

/- ── Entry point (main.py) ─────────────────────────────────────────────── -/

/-- `main` (main.py lines 87-171) as a function of the outcomes of its four
steps.  Returns the process exit code paired with the number of invocations
of the external summarization capability. -/
def mainModel (aggOutcome : Except String (List NewsItem)) (minStories : Nat)
    (hasKey : Bool) (api : ApiOutcome) (pdfOk dryRun sendOk : Bool) : Nat × Nat :=
  match aggOutcome with
  | Except.error _ => (1, 0)
  | Except.ok items =>
    if items.length < minStories then (1, 0)
    else
      match categorize_and_summarize items hasKey api with
      | (Except.error _, n) => (1, n)
      | (Except.ok _, n) =>
        if !pdfOk then (1, n)
        else if dryRun then (0, n)
        else if sendOk then (0, n)
        else (1, n)

/- ── Concrete fixtures used by the witness theorems ────────────────────── -/

/-- A concrete fetched item. -/
def itemA : NewsItem :=
  { title := "Claude ships", url := "u1", summary := "sum one"
    published := "p1", source := "Hacker News" }

/-- A concrete fetched item whose title collides with `itemA` after
lowercasing and trimming. -/
def itemB : NewsItem :=
  { title := " claude SHIPS ", url := "u2", summary := "sum two"
    published := "p2", source := "The Verge" }

/-- A concrete fetched item with a whitespace-only title. -/
def blankItem : NewsItem :=
  { title := "   ", url := "u3", summary := "sum three"
    published := "p3", source := "Wired" }

/-- A concrete parsed response: no executive summary, no top stories, and a
categories dict holding one extra, non-fixed key. -/
def rawExample : RawResult :=
  { executive_summary := none
    top_stories := none
    categories := some (CatVal.dict [("Extras", [⟨none, none, none, none, none⟩])]) }

/-- A concrete fresh feed entry (published one day before `now = 2 * 86400`). -/
def entryExample : Entry :=
  { title := "Fresh paper", link := "L", summary := "S"
    published := "today", published_parsed := some 86400 }

/-- The attempt outcomes of the C6 scenario: transient transport errors on
attempts 1 and 2, success from attempt 3 on. -/
def outcomesRetry : Nat → AttemptOutcome := fun n =>
  if n < 3 then AttemptOutcome.smtpError else AttemptOutcome.ok

section DedupLemmas

variable {α β : Type} (key : α → String)

theorem dedupKey_append (u v : List α) (s : List String) :
    dedupKey key (u ++ v) s = dedupKey key u s ++ dedupKey key v (seenAfter key u s) := by
  induction u generalizing s with
  | nil => simp [dedupKey, seenAfter]
  | cons a u ih =>
    simp only [List.cons_append, dedupKey, seenAfter]
    by_cases h : key a ≠ "" ∧ key a ∉ s
    · simp [h, ih]
    · simp [h, ih]

theorem dedupKey_sublist (l : List α) (s : List String) :
    (dedupKey key l s).Sublist l := by
  induction l generalizing s with
  | nil => simp [dedupKey]
  | cons a l ih =>
    simp only [dedupKey]
    by_cases h : key a ≠ "" ∧ key a ∉ s
    · simpa [h] using (ih (key a :: s)).cons₂ a
    · simpa [h] using (ih s).cons a

theorem mem_dedupKey {x : α} {l : List α} {s : List String}
    (hx : x ∈ dedupKey key l s) : key x ≠ "" ∧ key x ∉ s := by
  induction l generalizing s with
  | nil => simp [dedupKey] at hx
  | cons a l ih =>
    simp only [dedupKey] at hx
    by_cases h : key a ≠ "" ∧ key a ∉ s
    · rw [if_pos h] at hx
      rcases List.mem_cons.mp hx with rfl | hx'
      · exact h
      · have := ih hx'
        exact ⟨this.1, fun hs => this.2 (List.mem_cons_of_mem _ hs)⟩
    · rw [if_neg h] at hx
      exact ih hx

theorem subset_seenAfter (l : List α) (s : List String) :
    s ⊆ seenAfter key l s := by
  induction l generalizing s with
  | nil => simp [seenAfter]
  | cons a l ih =>
    simp only [seenAfter]
    by_cases h : key a ≠ "" ∧ key a ∉ s
    · rw [if_pos h]
      exact fun x hx => ih (key a :: s) (List.mem_cons_of_mem _ hx)
    · rw [if_neg h]
      exact ih s

theorem mem_seenAfter_of_mem {a : α} {l : List α} (s : List String)
    (ha : a ∈ l) (hk : key a ≠ "") : key a ∈ seenAfter key l s := by
  induction l generalizing s with
  | nil => simp at ha
  | cons b l ih =>
    simp only [seenAfter]
    rcases List.mem_cons.mp ha with rfl | ha'
    · by_cases h : key a ≠ "" ∧ key a ∉ s
      · rw [if_pos h]
        exact subset_seenAfter key l _ (List.mem_cons_self _ _)
      · rw [if_neg h]
        have hmem : key a ∈ s := by
          by_contra hne
          exact h ⟨hk, hne⟩
        exact subset_seenAfter key l s hmem
    · by_cases h : key b ≠ "" ∧ key b ∉ s
      · rw [if_pos h]; exact ih _ ha'
      · rw [if_neg h]; exact ih _ ha'

theorem mem_seenAfter {k : String} {l : List α} {s : List String}
    (hk : k ∈ seenAfter key l s) : k ∈ s ∨ ∃ a ∈ l, key a = k := by
  induction l generalizing s with
  | nil => simp [seenAfter] at hk; exact Or.inl hk
  | cons a l ih =>
    simp only [seenAfter] at hk
    by_cases h : key a ≠ "" ∧ key a ∉ s
    · rw [if_pos h] at hk
      rcases ih hk with hs | ⟨b, hb, hbk⟩
      · rcases List.mem_cons.mp hs with rfl | hs'
        · exact Or.inr ⟨a, List.mem_cons_self _ _, rfl⟩
        · exact Or.inl hs'
      · exact Or.inr ⟨b, List.mem_cons_of_mem _ hb, hbk⟩
    · rw [if_neg h] at hk
      rcases ih hk with hs | ⟨b, hb, hbk⟩
      · exact Or.inl hs
      · exact Or.inr ⟨b, List.mem_cons_of_mem _ hb, hbk⟩

theorem dedupKey_map_snd (l : List (β × α)) (s : List String) :
    (dedupKey (fun p => key p.2) l s).map Prod.snd = dedupKey key (l.map Prod.snd) s := by
  induction l generalizing s with
  | nil => simp [dedupKey]
  | cons a l ih =>
    simp only [dedupKey, List.map_cons]
    by_cases h : key a.2 ≠ "" ∧ key a.2 ∉ s
    · simp [h, ih]
    · simp [h, ih]

end DedupLemmas

theorem aggLoop_eq_dedup (fetched : List (List NewsItem)) (s : List String) :
    aggLoop fetched s = dedupKey itemKey fetched.flatten s := by
  induction fetched generalizing s with
  | nil => simp [aggLoop, dedupKey]
  | cons items rest ih =>
    simp [aggLoop, List.flatten, dedupKey_append, ih]

theorem aggregate_eq_dedup_enum_map (fetched : List (List NewsItem)) :
    (aggregateEnum fetched).map Prod.snd = aggregate_news fetched := by
  rw [aggregateEnum, aggregate_news, aggLoop_eq_dedup,
    dedupKey_map_snd itemKey, List.enum_map_snd]

theorem mem_take_enum_fst_lt {l : List NewsItem} {n : Nat} {p : Nat × NewsItem}
    (hp : p ∈ l.enum.take n) : p.1 < n ∧ ∃ h : p.1 < l.length, p.2 = l.get ⟨p.1, h⟩ := by
  rcases List.mem_iff_getElem.mp hp with ⟨m, hm, hget⟩
  have hm' : m < l.enum.length := by
    have := List.length_take n l.enum
    omega
  have hmn : m < n := by
    have := List.length_take n l.enum
    omega
  have hml : m < l.length := by
    rwa [List.enum_length] at hm'
  have : (l.enum.take n)[m] = l.enum[m] := List.getElem_take ..
  rw [this, List.getElem_enum] at hget
  subst hget
  exact ⟨hmn, hml, by simp⟩

theorem get_mem_take_enum {l : List NewsItem} {i n : Nat} (hin : i < n) (hl : i < l.length) :
    (i, l.get ⟨i, hl⟩) ∈ l.enum.take n := by
  have hlen : i < (l.enum.take n).length := by
    rw [List.length_take, List.enum_length]
    omega
  have hie : i < l.enum.length := by
    rw [List.enum_length]
    exact hl
  have : (l.enum.take n)[i] = l.enum[i] := List.getElem_take ..
  have h2 : (l.enum.take n)[i] = (i, l.get ⟨i, hl⟩) := by
    rw [this, List.getElem_enum]
    simp
  rw [← h2]
  exact List.getElem_mem hlen

/-- **C1.** For every list of fetched items, whenever two items (at positions
`i < j` of the concatenated fetcher output) have titles that are equal after
lowercasing and trimming, the position-tagged aggregation never keeps the
second occurrence; the first-encountered occurrence is kept whenever its
normalized title is nonempty and no earlier item carries that title; the
position-tagged run projects exactly onto `aggregate_news`; and the output is
a sublist of the input, i.e. surviving items keep the relative order in which
the fetchers produced them. -/
theorem aggregate_dedup_first_wins
    (fetched : List (List NewsItem)) (items : List NewsItem)
    (hitems : fetched.flatten = items)
    (i j : Nat) (hij : i < j) (hj : j < items.length)
    (heq : normTitle (items.get ⟨i, Nat.lt_trans hij hj⟩).title
         = normTitle (items.get ⟨j, hj⟩).title) :
    (j, items.get ⟨j, hj⟩) ∉ aggregateEnum fetched
  ∧ ((normTitle (items.get ⟨i, Nat.lt_trans hij hj⟩).title ≠ "" ∧
      ∀ (k : Nat) (hk : k < i),
        normTitle (items.get ⟨k, Nat.lt_trans hk (Nat.lt_trans hij hj)⟩).title
          ≠ normTitle (items.get ⟨i, Nat.lt_trans hij hj⟩).title) →
        (i, items.get ⟨i, Nat.lt_trans hij hj⟩) ∈ aggregateEnum fetched)
  ∧ (aggregateEnum fetched).map Prod.snd = aggregate_news fetched
  ∧ (aggregateEnum fetched).Sublist items.enum := by
  have hi : i < items.length := Nat.lt_trans hij hj
  have hagg : aggregateEnum fetched = dedupKey (fun p => itemKey p.2) items.enum [] := by
    rw [aggregateEnum, hitems]
  refine ⟨?_, ?_, aggregate_eq_dedup_enum_map fetched, ?_⟩
  · -- the second occurrence is never kept
    intro hmem
    rw [hagg] at hmem
    have hsplit : items.enum = items.enum.take (i+1) ++ items.enum.drop (i+1) :=
      (List.take_append_drop _ _).symm
    rw [hsplit, dedupKey_append] at hmem
    rcases List.mem_append.mp hmem with h1 | h2
    · have hsub := (dedupKey_sublist (fun p : Nat × NewsItem => itemKey p.2) _ _).subset h1
      have := (mem_take_enum_fst_lt hsub).1
      omega
    · have hnot := (mem_dedupKey (fun p : Nat × NewsItem => itemKey p.2) h2).2
      have hkey : itemKey (items.get ⟨i, hi⟩) ≠ "" := by
        intro hempty
        have hne := (mem_dedupKey (fun p : Nat × NewsItem => itemKey p.2) h2).1
        simp only [itemKey] at hne hempty ⊢
        rw [← heq] at hne
        exact hne hempty
      have hmemtake : (i, items.get ⟨i, hi⟩) ∈ items.enum.take (i+1) :=
        get_mem_take_enum (Nat.lt_succ_self i) hi
      have hseen := mem_seenAfter_of_mem (fun p : Nat × NewsItem => itemKey p.2)
        ([] : List String) hmemtake hkey
      simp only [itemKey] at hseen hnot
      rw [heq] at hseen
      exact hnot hseen
  · -- the first occurrence is kept when it is globally first and nonempty
    rintro ⟨hne, hfirst⟩
    rw [hagg]
    have hilen : i < items.enum.length := by rwa [List.enum_length]
    have hsplit : items.enum = items.enum.take i ++ items.enum.drop i :=
      (List.take_append_drop _ _).symm
    have hdrop : items.enum.drop i = items.enum[i] :: items.enum.drop (i+1) :=
      List.drop_eq_getElem_cons hilen
    have hget : items.enum[i] = (i, items.get ⟨i, hi⟩) := by
      rw [List.getElem_enum]
      simp
    rw [hsplit, dedupKey_append]
    refine List.mem_append_right _ ?_
    rw [hdrop, hget]
    have hnotseen : itemKey (items.get ⟨i, hi⟩) ∉
        seenAfter (fun p => itemKey p.2) (items.enum.take i) [] := by
      intro hmem
      rcases mem_seenAfter (fun p : Nat × NewsItem => itemKey p.2) hmem with hnil | ⟨p, hp, hpk⟩
      · simp at hnil
      · rcases mem_take_enum_fst_lt hp with ⟨hpi, hpl, hpv⟩
        refine hfirst p.1 hpi ?_
        simp only [itemKey] at hpk
        rw [hpv] at hpk
        exact hpk
    show (i, items.get ⟨i, hi⟩) ∈ dedupKey _ ((i, items.get ⟨i, hi⟩) :: _) _
    rw [dedupKey]
    rw [if_pos ⟨hne, hnotseen⟩]
    exact List.mem_cons_self _ _
  · rw [hagg]
    exact dedupKey_sublist _ _ _

/-- **C10.** Any fetched item whose title normalizes (lowercase + trim) to the
empty string is silently dropped: it never appears in the output of
`aggregate_news`, even when it is the only item with that title. -/
theorem aggregate_drops_blank_title (fetched : List (List NewsItem)) (x : NewsItem)
    (hx : normTitle x.title = "") : x ∉ aggregate_news fetched := by
  intro hmem
  rw [aggregate_news, aggLoop_eq_dedup] at hmem
  exact (mem_dedupKey itemKey hmem).1 hx

theorem aggregate_dedup_first_wins_witness :
    (1, ([itemA, itemB].get ⟨1, by decide⟩)) ∉ aggregateEnum [[itemA], [itemB]] :=
  (aggregate_dedup_first_wins [[itemA], [itemB]] [itemA, itemB] rfl 0 1
    (by decide) (by decide) (by decide)).1

theorem aggregate_drops_blank_title_witness :
    blankItem ∉ aggregate_news [[itemA, blankItem]] :=
  aggregate_drops_blank_title [[itemA, blankItem]] blankItem (by decide)

/- ── Association-list dict lemmas ──────────────────────────────────────── -/

theorem lookupKey_append_of_isSome {α : Type} {k : String} {d₁ : List (String × α)}
    (d₂ : List (String × α)) (h : (lookupKey k d₁).isSome = true) :
    lookupKey k (d₁ ++ d₂) = lookupKey k d₁ := by
  induction d₁ with
  | nil => simp [lookupKey] at h
  | cons p rest ih =>
    by_cases hk : p.1 = k
    · simp [lookupKey, hk]
    · simp only [List.cons_append, lookupKey, if_neg hk] at h ⊢
      exact ih h

theorem lookupKey_append_of_none {α : Type} {k : String} {d₁ : List (String × α)}
    (d₂ : List (String × α)) (h : lookupKey k d₁ = none) :
    lookupKey k (d₁ ++ d₂) = lookupKey k d₂ := by
  induction d₁ with
  | nil => simp [lookupKey]
  | cons p rest ih =>
    simp only [List.cons_append, lookupKey] at h ⊢
    by_cases hk : p.1 = k
    · rw [if_pos hk] at h; exact absurd h (by simp)
    · rw [if_neg hk] at h ⊢
      exact ih h

theorem lookupKey_map {α β : Type} (k : String) (f : α → β) (d : List (String × α)) :
    lookupKey k (d.map (fun p => (p.1, f p.2))) = (lookupKey k d).map f := by
  induction d with
  | nil => simp [lookupKey]
  | cons p rest ih =>
    simp only [List.map_cons, lookupKey]
    by_cases hk : p.1 = k
    · rw [if_pos hk, if_pos hk]
      rfl
    · rw [if_neg hk, if_neg hk]
      exact ih

theorem lookupKey_singleton {α : Type} (k c : String) (v : α) :
    lookupKey k [(c, v)] = if c = k then some v else none := by
  simp [lookupKey]

theorem lookupKey_insertDefault_preserve {α : Type} {k : String} {d : List (String × α)}
    (c : String) (v : α) (h : (lookupKey k d).isSome = true) :
    lookupKey k (dictInsertDefault d c v) = lookupKey k d := by
  rw [dictInsertDefault]
  by_cases hc : (lookupKey c d).isSome = true
  · rw [if_pos hc]
  · rw [if_neg hc]
    exact lookupKey_append_of_isSome _ h

theorem lookupKey_insertDefault_other {α : Type} {k c : String} (d : List (String × α))
    (v : α) (hne : c ≠ k) :
    lookupKey k (dictInsertDefault d c v) = lookupKey k d := by
  rw [dictInsertDefault]
  by_cases hc : (lookupKey c d).isSome = true
  · rw [if_pos hc]
  · rw [if_neg hc]
    cases hk : lookupKey k d with
    | some v' => rw [lookupKey_append_of_isSome _ (by simp [hk]), hk]
    | none =>
      rw [lookupKey_append_of_none _ hk, lookupKey_singleton, if_neg hne]

theorem lookupKey_insertDefault_of_none {α : Type} {c : String} {d : List (String × α)}
    (v : α) (h : lookupKey c d = none) :
    lookupKey c (dictInsertDefault d c v) = some v := by
  rw [dictInsertDefault, if_neg (by simp [h]), lookupKey_append_of_none _ h,
    lookupKey_singleton, if_pos rfl]

theorem foldl_insertDefault_preserve {α : Type} (v₀ : α) (cs : List String)
    (d : List (String × α)) (k : String) (h : (lookupKey k d).isSome = true) :
    lookupKey k (cs.foldl (fun acc c => dictInsertDefault acc c v₀) d) = lookupKey k d := by
  induction cs generalizing d with
  | nil => simp
  | cons c cs ih =>
    simp only [List.foldl_cons]
    rw [ih _ (by rw [lookupKey_insertDefault_preserve c v₀ h]; exact h),
      lookupKey_insertDefault_preserve c v₀ h]

theorem foldl_insertDefault_isSome {α : Type} (v₀ : α) (cs : List String)
    (d : List (String × α)) (c : String) (hc : c ∈ cs) :
    (lookupKey c (cs.foldl (fun acc c => dictInsertDefault acc c v₀) d)).isSome = true := by
  induction cs generalizing d with
  | nil => simp at hc
  | cons c' cs ih =>
    simp only [List.foldl_cons]
    rcases List.mem_cons.mp hc with rfl | hc'
    · have h1 : (lookupKey c (dictInsertDefault d c v₀)).isSome = true := by
        rw [dictInsertDefault]
        by_cases hd : (lookupKey c d).isSome = true
        · rw [if_pos hd]; exact hd
        · rw [if_neg hd,
            lookupKey_append_of_none _ (by cases h : lookupKey c d with
              | some v => exact absurd (by simp [h]) hd
              | none => rfl),
            lookupKey_singleton, if_pos rfl]
          rfl
      rw [foldl_insertDefault_preserve v₀ cs _ c h1]
      exact h1
    · exact ih _ hc'

theorem foldl_insertDefault_of_none {α : Type} (v₀ : α) (cs : List String)
    (d : List (String × α)) (c : String) (hc : c ∈ cs) (h : lookupKey c d = none) :
    lookupKey c (cs.foldl (fun acc c => dictInsertDefault acc c v₀) d) = some v₀ := by
  induction cs generalizing d with
  | nil => simp at hc
  | cons c' cs ih =>
    simp only [List.foldl_cons]
    by_cases hcc : c' = c
    · subst hcc
      have h1 := lookupKey_insertDefault_of_none v₀ h
      rw [foldl_insertDefault_preserve v₀ cs _ c' (by simp [h1]), h1]
    · rcases List.mem_cons.mp hc with rfl | hc'
      · exact absurd rfl hcc
      · exact ih _ hc' (by rw [lookupKey_insertDefault_other d v₀ hcc]; exact h)

theorem option_isSome_map {α β : Type} (f : α → β) (o : Option α) :
    (Option.map f o).isSome = o.isSome := by
  cases o <;> rfl

/-- **C2.** For every parsed response dict, whatever its shape, the Briefing
produced by `_validate_result` has a `categories` mapping that contains every
one of the 7 fixed category names as a key, maps each fixed name that the
response lacked to the empty sequence, and preserves every key the response's
categories dict did carry. -/
theorem validate_categories_complete (r : RawResult) :
    (∀ c ∈ CATEGORIES, (lookupKey c (validate_result r).categories).isSome = true)
  ∧ (∀ c ∈ CATEGORIES, lookupKey c (origCats r) = none →
      lookupKey c (validate_result r).categories = some [])
  ∧ (∀ k : String, (lookupKey k (origCats r)).isSome = true →
      (lookupKey k (validate_result r).categories).isSome = true) := by
  refine ⟨fun c hc => ?_, fun c hc h => ?_, fun k hk => ?_⟩
  · rw [validate_result]
    simp only [lookupKey_map]
    rw [option_isSome_map]
    exact foldl_insertDefault_isSome _ _ _ _ hc
  · rw [validate_result]
    simp only [lookupKey_map]
    rw [foldl_insertDefault_of_none _ _ _ _ hc h]
    rfl
  · rw [validate_result]
    simp only [lookupKey_map]
    rw [option_isSome_map]
    rw [foldl_insertDefault_preserve _ _ _ _ hk]
    exact hk

theorem validate_categories_complete_witness :
    (lookupKey "Research Breakthroughs" (validate_result rawExample).categories).isSome = true
  ∧ (lookupKey "Extras" (validate_result rawExample).categories).isSome = true :=
  ⟨(validate_categories_complete rawExample).1 "Research Breakthroughs" (by decide),
   (validate_categories_complete rawExample).2.2 "Extras" (by decide)⟩

/-- **C3.** For every input item list, the fallback Briefing used on JSON
parse failure is a deterministic function of the item list alone: the first
40 items are placed verbatim into the catch-all category
"Other AI & Tech News", the first 5 items become top stories with `reason`
the item's summary truncated to 150 characters, every other fixed category
is empty, and the executive summary is a fixed placeholder string. -/
theorem fallback_result_spec (items : List NewsItem) :
    lookupKey "Other AI & Tech News" (fallback_result items).categories
      = some ((items.take 40).map (fun it =>
          ({ title := it.title, url := it.url, source := it.source,
             summary := it.summary } : CatStory)))
  ∧ (∀ c ∈ CATEGORIES, c ≠ "Other AI & Tech News" →
      lookupKey c (fallback_result items).categories = some [])
  ∧ (fallback_result items).top_stories = (items.take 5).map (fun it =>
      ({ title := it.title, url := it.url, source := it.source,
         reason := pySlice it.summary 150 } : TopStory))
  ∧ (fallback_result items).executive_summary =
      "This week\x27s briefing contains the latest AI and tech news. Automated summarization encountered an issue; stories are listed below." := by
  refine ⟨rfl, fun c hc hne => ?_, rfl, rfl⟩
  simp only [CATEGORIES, List.mem_cons, List.not_mem_nil, or_false] at hc
  rcases hc with rfl | rfl | rfl | rfl | rfl | rfl | rfl
  · rfl
  · rfl
  · rfl
  · rfl
  · rfl
  · rfl
  · exact absurd rfl hne

theorem fallback_result_spec_witness :
    lookupKey "Research Breakthroughs" (fallback_result [itemA]).categories = some [] :=
  (fallback_result_spec [itemA]).2.1 "Research Breakthroughs" (by decide) (by decide)

/-- **C4 counterexample.** On an empty item list the summarizer returns
`_empty_result`, whose executive summary is the nonempty placeholder
"No news items were available this week." — not the empty string the claim
asserts. -/
theorem categorize_empty_summary_not_blank :
    (categorize_and_summarize [] true (ApiOutcome.success none)).1
      = Except.ok empty_result
  ∧ empty_result.executive_summary ≠ "" := by
  exact ⟨rfl, by decide⟩

/-- **C4 (amended).** When the input item list is empty,
`categorize_and_summarize` short-circuits to `_empty_result` — empty top
stories, all 7 categories mapped to empty sequences, and the fixed
placeholder executive summary "No news items were available this week."
(not an empty one) — without invoking the external summarization capability
(zero calls), whatever the capability would have returned. -/
theorem categorize_empty_short_circuit (hasKey : Bool) (api : ApiOutcome) :
    categorize_and_summarize [] hasKey api = (Except.ok empty_result, 0)
  ∧ empty_result.top_stories = []
  ∧ (∀ c ∈ CATEGORIES, lookupKey c empty_result.categories = some [])
  ∧ empty_result.executive_summary = "No news items were available this week." := by
  refine ⟨rfl, rfl, fun c hc => ?_, rfl⟩
  simp only [CATEGORIES, List.mem_cons, List.not_mem_nil, or_false] at hc
  rcases hc with rfl | rfl | rfl | rfl | rfl | rfl | rfl
  · rfl
  · rfl
  · rfl
  · rfl
  · rfl
  · rfl
  · rfl

theorem categorize_empty_short_circuit_witness :
    lookupKey "Other AI & Tech News" empty_result.categories = some [] :=
  (categorize_empty_short_circuit true ApiOutcome.apiError).2.2.1
    "Other AI & Tech News" (by decide)

/- ── String-length helpers for the renderer ────────────────────────────── -/

theorem string_length_mk (l : List Char) : (String.mk l).length = l.length := rfl

theorem string_append_mk (l₁ l₂ : List Char) :
    String.mk l₁ ++ String.mk l₂ = String.mk (l₁ ++ l₂) := rfl

theorem string_append_empty (s : String) : s ++ "" = s := by
  cases s with
  | mk l =>
    show String.mk l ++ String.mk [] = String.mk l
    rw [string_append_mk, List.append_nil]

theorem string_length_append (a b : String) :
    (a ++ b).length = a.length + b.length := by
  cases a with
  | mk l₁ =>
    cases b with
    | mk l₂ =>
      rw [string_append_mk, string_length_mk, string_length_mk, string_length_mk,
        List.length_append]

theorem pySlice_of_le (s : String) (n : Nat) (h : s.length ≤ n) : pySlice s n = s := by
  cases s with
  | mk l =>
    rw [pySlice]
    rw [List.take_of_length_le h]

theorem length_pySlice (s : String) (n : Nat) :
    (pySlice s n).length = min n s.length := by
  cases s with
  | mk l =>
    rw [pySlice, string_length_mk, List.length_take]
    rfl

/-- **C5 counterexample.** A 121-character story title is rendered with 121
characters both as a top story (no truncation at all there) and in a
category card (120 characters plus the appended ellipsis), contradicting the
claimed 120-character bound. -/
theorem render_title_over_120 :
    120 < (topStoryTitleText
      { title := String.mk (List.replicate 121 'a'), url := "u", source := "s",
        reason := "r" }).length
  ∧ 120 < (cardTitleText (String.mk (List.replicate 121 'a'))).length := by
  constructor
  · decide
  · decide

/-- **C5 (amended).** In category cards the rendered title is the original
title when it has at most 120 characters, and otherwise its first 120
characters with an ellipsis appended — 121 characters in total; likewise the
rendered summary is bounded by 280 characters, or 281 with the ellipsis,
appended exactly when the original exceeded the limit.  Top-story titles are
rendered verbatim, with no truncation. -/
theorem render_truncation (title summary : String) (s : TopStory) :
    (title.length ≤ 120 → cardTitleText title = title)
  ∧ (120 < title.length →
      cardTitleText title = pySlice title 120 ++ "…"
      ∧ (cardTitleText title).length = 121)
  ∧ (summary.length ≤ 280 → cardSummaryText summary = summary)
  ∧ (280 < summary.length →
      cardSummaryText summary = pySlice summary 280 ++ "…"
      ∧ (cardSummaryText summary).length = 281)
  ∧ topStoryTitleText s = s.title := by
  refine ⟨fun h => ?_, fun h => ⟨?_, ?_⟩, fun h => ?_, fun h => ⟨?_, ?_⟩, rfl⟩
  · rw [cardTitleText, if_neg (by omega), string_append_empty, pySlice_of_le _ _ h]
  · rw [cardTitleText, if_pos h]
  · rw [cardTitleText, if_pos h, string_length_append, length_pySlice,
      Nat.min_eq_left (Nat.le_of_lt h)]
    rfl
  · rw [cardSummaryText, if_neg (by omega), string_append_empty, pySlice_of_le _ _ h]
  · rw [cardSummaryText, if_pos h]
  · rw [cardSummaryText, if_pos h, string_length_append, length_pySlice,
      Nat.min_eq_left (Nat.le_of_lt h)]
    rfl

theorem render_truncation_witness :
    cardTitleText "short title" = "short title"
  ∧ cardSummaryText "short summary" = "short summary" :=
  ⟨(render_truncation "short title" "x" ⟨"t", "u", "s", "r"⟩).1 (by decide),
   (render_truncation "x" "short summary" ⟨"t", "u", "s", "r"⟩).2.2.1 (by decide)⟩

/-- **C6.** With the default `max_retries = 3`, the send loop makes at most 3
attempts: transient transport errors on attempts 1 and 2 followed by success
on attempt 3 yield exactly one successful send at attempt 3 preceded by
exactly two delays of increasing duration (2¹ = 2 then 2² = 4 seconds); an
authentication-class error on attempt 1, 2 or 3 is raised immediately on
that attempt, with no further attempts and no further delay; and three
transient failures raise the last transport error (the one of attempt 3)
after the same two delays. -/
theorem send_retry_behavior (o : Nat → AttemptOutcome) :
    (o 1 = AttemptOutcome.smtpError → o 2 = AttemptOutcome.smtpError →
      o 3 = AttemptOutcome.ok →
        sendLoop o 3 = (SendResult.sent 3, [2, 4]))
  ∧ (o 1 = AttemptOutcome.authError →
        sendLoop o 3 = (SendResult.authRaised 1, []))
  ∧ (o 1 = AttemptOutcome.smtpError → o 2 = AttemptOutcome.authError →
        sendLoop o 3 = (SendResult.authRaised 2, [2]))
  ∧ (o 1 = AttemptOutcome.smtpError → o 2 = AttemptOutcome.smtpError →
      o 3 = AttemptOutcome.authError →
        sendLoop o 3 = (SendResult.authRaised 3, [2, 4]))
  ∧ (o 1 = AttemptOutcome.smtpError → o 2 = AttemptOutcome.smtpError →
      o 3 = AttemptOutcome.smtpError →
        sendLoop o 3 = (SendResult.smtpRaised 3, [2, 4])) := by
  refine ⟨fun h1 h2 h3 => ?_, fun h1 => ?_, fun h1 h2 => ?_,
    fun h1 h2 h3 => ?_, fun h1 h2 h3 => ?_⟩
  · simp [sendLoop, sendAttempts, h1, h2, h3]
  · simp [sendLoop, sendAttempts, h1]
  · simp [sendLoop, sendAttempts, h1, h2]
  · simp [sendLoop, sendAttempts, h1, h2, h3]
  · simp [sendLoop, sendAttempts, h1, h2, h3]

theorem send_retry_behavior_witness :
    sendLoop outcomesRetry 3 = (SendResult.sent 3, [2, 4]) :=
  (send_retry_behavior outcomesRetry).1 rfl rfl rfl

/-- **C7.** Whenever aggregation succeeds but yields fewer stories than the
configured minimum, the entry point exits with status 1 (non-zero) and the
external summarization capability is never invoked. -/
theorem main_aborts_below_minimum (items : List NewsItem) (minStories : Nat)
    (hasKey : Bool) (api : ApiOutcome) (pdfOk dryRun sendOk : Bool)
    (h : items.length < minStories) :
    mainModel (Except.ok items) minStories hasKey api pdfOk dryRun sendOk = (1, 0)
  ∧ (mainModel (Except.ok items) minStories hasKey api pdfOk dryRun sendOk).1 ≠ 0 := by
  constructor
  · simp [mainModel, if_pos h]
  · simp [mainModel, if_pos h]

theorem main_aborts_below_minimum_witness :
    mainModel (Except.ok [itemA, itemB, blankItem]) 10 true ApiOutcome.apiError
      true false true = (1, 0) :=
  (main_aborts_below_minimum [itemA, itemB, blankItem] 10 true ApiOutcome.apiError
    true false true (by decide)).1

theorem missingNames_nil_iff (to_addr from_addr password : Option String) :
    missingNames to_addr from_addr password = [] ↔
      (pyTruthy to_addr && pyTruthy from_addr && pyTruthy password) = true := by
  cases hTo : pyTruthy to_addr <;> cases hFr : pyTruthy from_addr <;>
    cases hPw : pyTruthy password <;> simp [missingNames, hTo, hFr, hPw]

/-- **C8.** When any of the three required delivery configuration values
(recipient address, sender address, transport credential) resolves to an
unset/empty value, `send_briefing` raises the configuration error whose
message lists exactly the missing names, and it opens zero SMTP connections
— the error precedes any network activity.  A name appears in the missing
list precisely when the corresponding value is not truthy. -/
theorem send_missing_config (recipient envR sender envS password envP : Option String)
    (o : Nat → AttemptOutcome) (maxRetries : Nat)
    (h : missingNames (pyOr recipient envR) (pyOr sender envS) (pyOr password envP) ≠ []) :
    send_briefing recipient envR sender envS password envP o maxRetries
      = SendOutcome.configError
          ("Missing email configuration: " ++ pyJoin ", "
            (missingNames (pyOr recipient envR) (pyOr sender envS) (pyOr password envP)))
  ∧ networkAttempts (send_briefing recipient envR sender envS password envP o maxRetries) = 0
  ∧ ("RECIPIENT_EMAIL" ∈ missingNames (pyOr recipient envR) (pyOr sender envS)
        (pyOr password envP) ↔ pyTruthy (pyOr recipient envR) = false)
  ∧ ("SENDER_EMAIL" ∈ missingNames (pyOr recipient envR) (pyOr sender envS)
        (pyOr password envP) ↔ pyTruthy (pyOr sender envS) = false)
  ∧ ("GMAIL_APP_PASSWORD" ∈ missingNames (pyOr recipient envR) (pyOr sender envS)
        (pyOr password envP) ↔ pyTruthy (pyOr password envP) = false) := by
  have hcond : (pyTruthy (pyOr recipient envR) && pyTruthy (pyOr sender envS) &&
      pyTruthy (pyOr password envP)) ≠ true := by
    intro hc
    exact h ((missingNames_nil_iff _ _ _).mpr hc)
  have heq : send_briefing recipient envR sender envS password envP o maxRetries
      = SendOutcome.configError
          ("Missing email configuration: " ++ pyJoin ", "
            (missingNames (pyOr recipient envR) (pyOr sender envS) (pyOr password envP))) := by
    rw [send_briefing]
    simp only [if_neg hcond]
  refine ⟨heq, by rw [heq]; rfl, ?_, ?_, ?_⟩ <;>
    (cases hTo : pyTruthy (pyOr recipient envR) <;>
     cases hFr : pyTruthy (pyOr sender envS) <;>
     cases hPw : pyTruthy (pyOr password envP) <;>
     simp [missingNames, hTo, hFr, hPw])

theorem send_missing_config_witness :
    send_briefing none none (some "a@b") none (some "") (some "pw")
        (fun _ => AttemptOutcome.ok) 3
      = SendOutcome.configError
          ("Missing email configuration: " ++ pyJoin ", "
            (missingNames (pyOr none none) (pyOr (some "a@b") none)
              (pyOr (some "") (some "pw")))) :=
  (send_missing_config none none (some "a@b") none (some "") (some "pw")
    (fun _ => AttemptOutcome.ok) 3 (by decide)).1

theorem mem_fetchFeedLoop {now maxAge : Int} {limit : Nat} {src : String}
    {l : List Entry} {acc : List NewsItem} {x : NewsItem}
    (hx : x ∈ fetchFeedLoop now maxAge limit src l acc) :
    x ∈ acc ∨ ∃ e ∈ l, x = entryToItem src e ∧
      ¬ age_days now e.published_parsed > (maxAge : Rat) := by
  induction l generalizing acc with
  | nil => exact Or.inl (by simpa [fetchFeedLoop] using hx)
  | cons e rest ih =>
    rw [fetchFeedLoop] at hx
    by_cases h : age_days now e.published_parsed > (maxAge : Rat)
    · rw [if_pos h] at hx
      rcases ih hx with ha | ⟨e', he', hrest⟩
      · exact Or.inl ha
      · exact Or.inr ⟨e', List.mem_cons_of_mem _ he', hrest⟩
    · rw [if_neg h] at hx
      by_cases h2 : limit ≤ (acc ++ [entryToItem src e]).length
      · rw [if_pos h2] at hx
        rcases List.mem_append.mp hx with ha | hb
        · exact Or.inl ha
        · rcases List.mem_singleton.mp hb with rfl
          exact Or.inr ⟨e, List.mem_cons_self _ _, rfl, h⟩
      · rw [if_neg h2] at hx
        rcases ih hx with ha | ⟨e', he', hrest⟩
        · rcases List.mem_append.mp ha with ha' | hb
          · exact Or.inl ha'
          · rcases List.mem_singleton.mp hb with rfl
            exact Or.inr ⟨e, List.mem_cons_self _ _, rfl, h⟩
        · exact Or.inr ⟨e', List.mem_cons_of_mem _ he', hrest⟩

theorem age_days_bound {now p maxAge : Int}
    (h : ¬ age_days now (some p) > (maxAge : Rat)) :
    now - p ≤ maxAge * 86400 := by
  simp only [age_days] at h
  push_neg at h
  rw [div_le_iff₀ (by norm_num : (0 : Rat) < 86400)] at h
  exact_mod_cast h

/-- **C9.** Every item that the aggregator outputs from feed-based fetcher
results comes from some feed entry, and whenever that entry's publish
timestamp is known, it is at most `maxAge` days (`maxAge * 86400` seconds)
before `now`: items older than the look-back window are never included. -/
theorem feed_age_filter (now maxAge : Int) (limit : Nat)
    (feeds : List (String × List Entry)) (x : NewsItem)
    (hx : x ∈ aggregate_news (feeds.map (fun f => fetch_feed now maxAge limit f.1 f.2))) :
    ∃ f ∈ feeds, ∃ e ∈ f.2, x = entryToItem f.1 e ∧
      ∀ p : Int, e.published_parsed = some p → now - p ≤ maxAge * 86400 := by
  rw [aggregate_news, aggLoop_eq_dedup] at hx
  have hx' := (dedupKey_sublist itemKey _ _).subset hx
  rcases List.mem_flatten.mp hx' with ⟨l, hl, hxl⟩
  rcases List.mem_map.mp hl with ⟨f, hf, rfl⟩
  rw [fetch_feed] at hxl
  rcases mem_fetchFeedLoop hxl with hnil | ⟨e, he, hxe, hage⟩
  · simp at hnil
  · refine ⟨f, hf, e, List.take_subset _ _ he, hxe, fun p hp => ?_⟩
    rw [hp] at hage
    exact age_days_bound hage

theorem feed_age_filter_witness :
    ∃ f ∈ [("ArXiv cs.AI", [entryExample])], ∃ e ∈ f.2,
      entryToItem "ArXiv cs.AI" entryExample = entryToItem f.1 e ∧
      ∀ p : Int, e.published_parsed = some p → (2 * 86400 : Int) - p ≤ 7 * 86400 :=
  feed_age_filter (2 * 86400) 7 20 [("ArXiv cs.AI", [entryExample])]
    (entryToItem "ArXiv cs.AI" entryExample) (by
      have hfeed : fetch_feed (2 * 86400) 7 20 "ArXiv cs.AI" [entryExample]
          = [entryToItem "ArXiv cs.AI" entryExample] := by
        simp [fetch_feed, fetchFeedLoop]
        norm_num [age_days, entryExample]
      simp only [List.map_cons, List.map_nil, hfeed]
      rw [aggregate_news, aggLoop, dedupKey,
        if_pos (⟨by decide, by decide⟩ :
          itemKey (entryToItem "ArXiv cs.AI" entryExample) ≠ "" ∧
          itemKey (entryToItem "ArXiv cs.AI" entryExample) ∉ ([] : List String))]
      exact List.mem_append_left _ (List.mem_cons_self _ _))
